import Mathlib

/-
Verification of the open-elevation spatial lookup engine.

Shallow embedding of src/src/open_elevation/elevation/service.py
(ElevationService.get_elevation, ElevationService.process_location),
src/src/open_elevation/elevation/routes.py (lookup), and the pieces of
external libraries the service observably depends on (cachetools.LRUCache,
rasterio dataset.index / windowed read, rtree point intersection,
CPython float() string parsing).

Modelling conventions:
- Geographic coordinates and sample values are rationals (exact arithmetic);
  IEEE-754 rounding of parsed decimals is not modelled.  Non-finite floats
  (nan, inf) from float() are modelled explicitly by the PyFloat type.
- Raised exceptions become an Except result; an uncaught Python exception
  (for example the IndexError from indexing an empty window read, or the
  ValueError cachetools raises when maxsize is 0) is modelled as
  AppErr.pyError.
- Observable side effects needed by the claims (spatial-index queries and
  single-pixel raster reads) are recorded in an event list.
-/

namespace OpenElevation

/-- Error taxonomy of src/src/open_elevation/exceptions.py, plus pyError for
an uncaught Python exception escaping the service code. -/
inductive AppErr where
  | invalidCoordinate
  | notFound (latitude longitude : ℚ)
  | readError
  | indexBuild
  | pyError
deriving DecidableEq

/-- Observable I/O events of one lookup: a spatial-index point query
(the list(self._spatial_index.intersection(...)) call) and a windowed
single-pixel raster read (dataset.read(1, window=Window(col, row, 1, 1))). -/
inductive Event where
  | indexQuery (longitude latitude : ℚ)
  | pixelRead (row col : Nat)
deriving DecidableEq

/-- One indexed GeoTIFF file. `left`, `top`, `xres`, `yres` are the
north-up affine transform rasterio stores (pixel (row, col) has its
upper-left corner at geographic (left + col * xres, top - row * yres));
`data r c` is the band-1 sample at that pixel; `nodata` is the declared
no-data sentinel, if any; `ioError = true` models a file whose open/read
raises rasterio.RasterioIOError (corrupt or missing file). -/
structure Tile where
  left : ℚ
  top : ℚ
  xres : ℚ
  yres : ℚ
  width : Nat
  height : Nat
  data : Nat → Nat → ℚ
  nodata : Option ℚ
  ioError : Bool

/-- Right edge of the bounds rasterio derives from transform and size. -/
def Tile.right (t : Tile) : ℚ := t.left + t.width * t.xres

/-- Bottom edge of the bounds rasterio derives from transform and size. -/
def Tile.bottom (t : Tile) : ℚ := t.top - t.height * t.yres

/-- rtree point-intersection test against the inserted rectangle
(bounds.left, bounds.bottom, bounds.right, bounds.top): closed intervals on
all four sides. -/
def Tile.covers (t : Tile) (longitude latitude : ℚ) : Bool :=
  decide (t.left ≤ longitude) && decide (longitude ≤ t.right) &&
    decide (t.bottom ≤ latitude) && decide (latitude ≤ t.top)

/-- Pixel row of a latitude: rasterio dataset.index inverts the affine
transform and applies math.floor. -/
def Tile.rowOf (t : Tile) (latitude : ℚ) : ℤ :=
  Int.floor ((t.top - latitude) / t.yres)

/-- Pixel column of a longitude: rasterio dataset.index inverts the affine
transform and applies math.floor. -/
def Tile.colOf (t : Tile) (longitude : ℚ) : ℤ :=
  Int.floor ((longitude - t.left) / t.xres)

/-- The windowed read dataset.read(1, window=Window(col, row, 1, 1))[0, 0],
followed by float().  When the computed row/col lies inside the pixel grid
the single sample is returned; otherwise the window does not intersect the
grid, the read yields an empty array and the [0, 0] indexing raises an
uncaught IndexError, modelled as none. -/
def Tile.readPixel (t : Tile) (longitude latitude : ℚ) : Option ℚ :=
  let r := t.rowOf latitude
  let c := t.colOf longitude
  if 0 ≤ r ∧ r < (t.height : ℤ) ∧ 0 ≤ c ∧ c < (t.width : ℤ) then
    some (t.data r.toNat c.toNat)
  else
    none

/-- Cache key: the exact (latitude, longitude) pair, used verbatim. -/
abbrev QueryKey := ℚ × ℚ

/-- The LRU cache content, most-recently-used entry first. -/
abbrev CacheList := List (QueryKey × ℚ)

/-- Boolean key equality for cache searches. -/
def keyEq (a b : QueryKey) : Bool := decide (a = b)

/-- Value lookup without touching the recency order (the membership test
`cache_key in self._cache` and the read the hit path performs). -/
def lruFind (c : CacheList) (k : QueryKey) : Option ℚ :=
  (c.find? fun p => keyEq p.1 k).map Prod.snd

/-- Remove every entry for a key. -/
def eraseKey (c : CacheList) (k : QueryKey) : CacheList :=
  c.filter fun p => !(keyEq p.1 k)

/-- cachetools LRUCache.__getitem__ on a hit: the key moves to the
most-recently-used position. -/
def lruTouch (c : CacheList) (k : QueryKey) (v : ℚ) : CacheList :=
  (k, v) :: eraseKey c k

/-- cachetools LRUCache.__setitem__ for unit-sized entries and maxsize ≥ 1:
an existing entry for the key is replaced and moved to the MRU position; a
new key is inserted at the MRU position, evicting from the LRU end while
over capacity.  (For maxsize = 0 cachetools raises ValueError instead; the
service models that path separately as AppErr.pyError.) -/
def lruPut (maxsize : Nat) (c : CacheList) (k : QueryKey) (v : ℚ) : CacheList :=
  (k, v) :: (eraseKey c k).take (maxsize - 1)

/-- The mutable state of one ElevationService: the configured
cache_max_size, the LRU cache content, and the spatial index
(none models self._spatial_index is None, i.e. build_or_load_index was
never called; some tiles holds the indexed tiles in insertion order). -/
structure ServiceState where
  maxsize : Nat
  cache : CacheList
  spatialIndex : Option (List Tile)

/-- The body of the for-loop of ElevationService.get_elevation over the
candidate list.  The Python loop body either returns (successful read) or
raises (RasterioIOError becomes ElevationReadError; IndexError propagates),
so only the first candidate is ever visited; an empty candidate list falls
through to ElevationNotFoundError.  On a successful read the sample is
cached before returning; with maxsize = 0 that cache store raises
ValueError inside cachetools (modelled as pyError, cache unchanged). -/
def readFirst (st : ServiceState) (latitude longitude : ℚ) :
    List Tile → Except AppErr ℚ × ServiceState × List Event
  | [] => (.error (.notFound latitude longitude), st, [])
  | t :: _ =>
    if t.ioError then
      (.error .readError, st, [])
    else
      match t.readPixel longitude latitude with
      | none => (.error .pyError, st, [])
      | some v =>
        let evs := [Event.pixelRead (t.rowOf latitude).toNat (t.colOf longitude).toNat]
        if st.maxsize = 0 then
          (.error .pyError, st, evs)
        else
          (.ok v,
           { st with cache := lruPut st.maxsize st.cache (latitude, longitude) v },
           evs)

/-- Record the spatial-index point query performed by
list(self._spatial_index.intersection((lon, lat, lon, lat), objects=True)). -/
def withIndexEvent (latitude longitude : ℚ)
    (r : Except AppErr ℚ × ServiceState × List Event) :
    Except AppErr ℚ × ServiceState × List Event :=
  (r.1, r.2.1, Event.indexQuery longitude latitude :: r.2.2)

/-- ElevationService.get_elevation (service.py lines 102-149): cache fast
path (membership test, then a recency-updating read on a hit), then the
index None guard, then the spatial-index query returning candidates in
insertion order, then the candidate loop. -/
def get_elevation (st : ServiceState) (latitude longitude : ℚ) :
    Except AppErr ℚ × ServiceState × List Event :=
  match lruFind st.cache (latitude, longitude) with
  | some v =>
      (.ok v, { st with cache := lruTouch st.cache (latitude, longitude) v }, [])
  | none =>
    match st.spatialIndex with
    | none => (.error .indexBuild, st, [])
    | some tiles =>
        withIndexEvent latitude longitude
          (readFirst st latitude longitude
            (tiles.filter fun t => t.covers longitude latitude))

/-- The value float() produces for a string: a finite value (modelled
exactly as a rational), nan, or a signed infinity. -/
inductive PyFloat where
  | finite (val : ℚ)
  | nan
  | posInf
  | negInf
deriving DecidableEq

/-- Whether a parsed float is finite. -/
def PyFloat.isFinite : PyFloat → Bool
  | .finite _ => true
  | _ => false

/-- The ASCII whitespace characters str.strip() and float() remove. -/
def isPySpace (c : Char) : Bool :=
  c = ' ' || c = '\t' || c = '\n' || c = '\r' ||
    c = Char.ofNat 11 || c = Char.ofNat 12

/-- Strip leading and trailing whitespace from a character list. -/
def stripChars (cs : List Char) : List Char :=
  ((cs.dropWhile isPySpace).reverse.dropWhile isPySpace).reverse

/-- str.strip(): whitespace removed from both ends. -/
def pyStrip (s : String) : String :=
  String.mk (stripChars s.toList)

/-- Tail of a Python digit group: digits with single underscores allowed
only between digits ("1_2_3" is valid, "1__2", "1_" are not). -/
def groupRest : List Char → Bool
  | [] => true
  | '_' :: c :: rest => c.isDigit && groupRest rest
  | c :: rest => c.isDigit && groupRest rest

/-- A valid, nonempty Python digit group (digitpart in the float grammar). -/
def okGroup : List Char → Bool
  | [] => false
  | c :: rest => c.isDigit && groupRest rest

/-- Numeric value of a digit list. -/
def natOfDigits (cs : List Char) : ℕ :=
  cs.foldl (fun a c => 10 * a + (c.toNat - 48)) 0

/-- Keep only the digits of a group (drops the underscores). -/
def digitsOf (cs : List Char) : List Char :=
  cs.filter Char.isDigit

/-- Split a character list at the first character satisfying p; the second
component is none when no such character occurs. -/
def splitAtChar (p : Char → Bool) : List Char → List Char × Option (List Char)
  | [] => ([], none)
  | c :: rest =>
    if p c then ([], some rest)
    else
      let sp := splitAtChar p rest
      (c :: sp.1, sp.2)

/-- Multiply by a signed power of ten. -/
def mulPow10 (q : ℚ) (e : ℤ) : ℚ :=
  if 0 ≤ e then q * 10 ^ e.toNat else q / 10 ^ (-e).toNat

/-- The exponent part after the e/E marker: an optional sign and a digit
group. -/
def parseExp : List Char → Option ℤ
  | '+' :: rest => if okGroup rest then some (natOfDigits (digitsOf rest) : ℤ) else none
  | '-' :: rest => if okGroup rest then some (-(natOfDigits (digitsOf rest) : ℤ)) else none
  | rest => if okGroup rest then some (natOfDigits (digitsOf rest) : ℤ) else none

/-- The CPython float() decimal grammar after sign removal:
[digitpart] ["." [digitpart]] [("e" | "E") [sign] digitpart], with at
least one digit in the integer or fraction part.  A second dot or e/E
makes the corresponding group invalid. -/
def parseDecimal (cs : List Char) : Option ℚ :=
  let spE := splitAtChar (fun c => c = 'e' || c = 'E') cs
  let expVal : Option ℤ :=
    match spE.2 with
    | none => some 0
    | some es => parseExp es
  match expVal with
  | none => none
  | some e =>
    let spDot := splitAtChar (fun c => c = '.') spE.1
    let ip := spDot.1
    let fp := (spDot.2).getD []
    if (ip.isEmpty || okGroup ip) && (fp.isEmpty || okGroup fp) &&
        !(ip.isEmpty && fp.isEmpty) then
      let ipd := digitsOf ip
      let fpd := digitsOf fp
      let mant : ℚ := (natOfDigits ipd : ℚ) + (natOfDigits fpd : ℚ) / 10 ^ fpd.length
      some (mulPow10 mant e)
    else
      none

/-- CPython float(str): strip whitespace, take an optional sign, then
either a case-insensitive inf/infinity/nan keyword or a decimal literal. -/
def pyFloatChars (cs0 : List Char) : Option PyFloat :=
  let cs := stripChars cs0
  let sp : Bool × List Char :=
    match cs with
    | '+' :: rest => (false, rest)
    | '-' :: rest => (true, rest)
    | rest => (false, rest)
  let neg := sp.1
  let body := sp.2
  let low := body.map Char.toLower
  if low = ['n', 'a', 'n'] then some .nan
  else if low = ['i', 'n', 'f'] || low = ['i', 'n', 'f', 'i', 'n', 'i', 't', 'y'] then
    some (if neg then .negInf else .posInf)
  else
    match parseDecimal body with
    | none => none
    | some q => some (.finite (if neg then -q else q))

/-- float() on a Lean string. -/
def pyFloatOfString (s : String) : Option PyFloat :=
  pyFloatChars s.toList

/-- The chained comparison lo <= x <= hi on a Python float, returning the
rational value on acceptance.  NaN fails both comparisons and every
infinity fails one of them, so only in-range finite values pass — exactly
the behavior of `if not (-90 <= latitude <= 90)` in process_location. -/
def inRange (lo hi : ℚ) : PyFloat → Option ℚ
  | .finite q => if lo ≤ q ∧ q ≤ hi then some q else none
  | _ => none

/-- The parse-and-validate stage of ElevationService.process_location
(service.py lines 165-181): split on every comma and require exactly two
parts (tuple unpacking), strip and float() each part (ValueError becomes
InvalidCoordinateError), then range-check latitude and longitude. -/
def validateLocation (location : String) : Option (ℚ × ℚ) :=
  match location.splitOn "," with
  | [latStr, lonStr] =>
    match pyFloatOfString (pyStrip latStr), pyFloatOfString (pyStrip lonStr) with
    | some plat, some plon =>
      match inRange (-90) 90 plat, inRange (-180) 180 plon with
      | some la, some lo => some (la, lo)
      | _, _ => none
    | _, _ => none
  | _ => none

/-- The result record returned per location (schemas.ElevationResult). -/
structure ElevationResult where
  latitude : ℚ
  longitude : ℚ
  elevation : ℚ
deriving DecidableEq

/-- ElevationService.process_location (service.py lines 151-188): any
parse or range failure raises InvalidCoordinateError before the lookup;
otherwise the lookup result (or its error) is propagated together with the
echoed coordinates. -/
def process_location (st : ServiceState) (location : String) :
    Except AppErr ElevationResult × ServiceState × List Event :=
  match validateLocation location with
  | none => (.error .invalidCoordinate, st, [])
  | some (la, lo) =>
    match get_elevation st la lo with
    | (.ok e, st1, evs) =>
        (.ok { latitude := la, longitude := lo, elevation := e }, st1, evs)
    | (.error err, st1, evs) => (.error err, st1, evs)

/-- The first error among per-location outcomes, in list order. -/
def firstError : List (Except AppErr ElevationResult) → Option AppErr
  | [] => none
  | .ok _ :: rest => firstError rest
  | .error e :: _ => some e

/-- Extract a success, if any. -/
def okPart (r : Except AppErr ElevationResult) : Option ElevationResult :=
  match r with
  | .ok v => some v
  | .error _ => none

/-- The per-location outcomes routes.lookup fans out over the worker pool
(one process_location task per raw location string); each task is modelled
as reading the shared service state as it was when the batch started, one
admissible concurrent schedule. -/
def batchOutcomes (st : ServiceState) (locs : List String) :
    List (Except AppErr ElevationResult) :=
  locs.map fun l => (process_location st l).1

/-- The batch endpoint routes.lookup (routes.py lines 29-73):
asyncio.gather is called without return_exceptions, so if any task raises,
the gather re-raises that exception and the whole request is turned into a
single HTTP error; only when every task succeeds is the ordered result
list returned. -/
def batchLookup (st : ServiceState) (locs : List String) :
    Except AppErr (List ElevationResult) :=
  let outs := batchOutcomes st locs
  match firstError outs with
  | some e => .error e
  | none => .ok (outs.filterMap okPart)

/-! Concrete fixtures: the 10x10 gradient tile of the integration tests and
of spec section 8 (lon 0..1, lat 50..51, 0.1 degree pixels, elevation
100 + 10 * column), plus corrupt and all-nodata variants of the same
footprint, and service states over them. -/

/-- The 10x10 test tile: lon 0..1, lat 50..51, 0.1 degree pixels,
elevation 100 + 10 * column meters. -/
def tileGrad : Tile :=
  { left := 0, top := 51, xres := 1/10, yres := 1/10, width := 10, height := 10,
    data := fun _ c => 100 + 10 * (c : ℚ), nodata := none, ioError := false }

/-- A corrupt tile with the same footprint: every open/read raises
rasterio.RasterioIOError. -/
def tileBroken : Tile :=
  { tileGrad with ioError := true }

/-- A tile with the same footprint whose every sample equals its declared
no-data sentinel -9999. -/
def tileNoData : Tile :=
  { tileGrad with data := fun _ _ => -9999, nodata := some (-9999) }

/-- Service over the single gradient tile, empty cache, maxsize 100. -/
def stGrad : ServiceState :=
  { maxsize := 100, cache := [], spatialIndex := some [tileGrad] }

/-- Service whose index holds the corrupt tile first, then the good one. -/
def stBrokenFirst : ServiceState :=
  { maxsize := 100, cache := [], spatialIndex := some [tileBroken, tileGrad] }

/-- Service whose index holds the all-nodata tile first, then the good one. -/
def stNoDataFirst : ServiceState :=
  { maxsize := 100, cache := [], spatialIndex := some [tileNoData, tileGrad] }

/-- Service with a built but empty index. -/
def stEmptyIndex : ServiceState :=
  { maxsize := 100, cache := [], spatialIndex := some [] }

/-- Service whose index was never built (self._spatial_index is None). -/
def stNoIndex : ServiceState :=
  { maxsize := 100, cache := [], spatialIndex := none }

/-! Helper lemmas about the service step function. -/

/-- Every branch of the candidate loop other than the successful one
leaves the service state untouched. -/
lemma readFirst_error_state (st : ServiceState) (la lo : ℚ) (ts : List Tile)
    (e : AppErr) (st1 : ServiceState) (evs : List Event)
    (h : readFirst st la lo ts = (.error e, st1, evs)) : st1 = st := by
  cases ts with
  | nil =>
    simp only [readFirst, Prod.mk.injEq] at h
    exact h.2.1.symm
  | cons t rest =>
    simp only [readFirst] at h
    by_cases hio : t.ioError
    · simp only [hio, if_true, Prod.mk.injEq] at h
      exact h.2.1.symm
    · simp only [hio, if_false, Bool.false_eq_true] at h
      cases hrp : t.readPixel lo la with
      | none =>
        rw [hrp] at h
        simp only [Prod.mk.injEq] at h
        exact h.2.1.symm
      | some v =>
        rw [hrp] at h
        by_cases hmax : st.maxsize = 0
        · simp only [hmax, if_true, Prod.mk.injEq] at h
          exact h.2.1.symm
        · simp only [hmax, if_false, Prod.mk.injEq] at h
          exact absurd h.1 (by simp)

/-- On any raised error, get_elevation leaves the state exactly as it was. -/
lemma get_elevation_error_state (st : ServiceState) (la lo : ℚ) (e : AppErr)
    (st1 : ServiceState) (evs : List Event)
    (h : get_elevation st la lo = (.error e, st1, evs)) : st1 = st := by
  unfold get_elevation at h
  cases hf : lruFind st.cache (la, lo) with
  | some v =>
    rw [hf] at h
    simp only [Prod.mk.injEq] at h
    exact absurd h.1 (by simp)
  | none =>
    rw [hf] at h
    cases hsi : st.spatialIndex with
    | none =>
      rw [hsi] at h
      simp only [Prod.mk.injEq] at h
      exact h.2.1.symm
    | some tiles =>
      rw [hsi] at h
      simp only [withIndexEvent, Prod.mk.injEq] at h
      exact readFirst_error_state st la lo _ e st1 _
        (by
          obtain ⟨h1, h2, h3⟩ := h
          exact Prod.ext h1 (Prod.ext h2 rfl))

/-- A freshly inserted or touched key is found at the MRU position. -/
lemma lruFind_cons_self (c : CacheList) (k : QueryKey) (v : ℚ) :
    lruFind ((k, v) :: c) k = some v := by
  simp [lruFind, keyEq, List.find?]

/-- A successful pass through the candidate loop stores the sample in the
cache at the queried key. -/
lemma readFirst_ok_state (st : ServiceState) (la lo : ℚ) (ts : List Tile)
    (e : ℚ) (st1 : ServiceState) (evs : List Event)
    (h : readFirst st la lo ts = (.ok e, st1, evs)) :
    st.maxsize ≠ 0 ∧
      st1 = { st with cache := lruPut st.maxsize st.cache (la, lo) e } := by
  cases ts with
  | nil => simp only [readFirst, Prod.mk.injEq] at h; exact absurd h.1 (by simp)
  | cons t rest =>
    simp only [readFirst] at h
    by_cases hio : t.ioError
    · simp only [hio, if_true, Prod.mk.injEq] at h
      exact absurd h.1 (by simp)
    · simp only [hio, if_false, Bool.false_eq_true] at h
      cases hrp : t.readPixel lo la with
      | none =>
        rw [hrp] at h
        simp only [Prod.mk.injEq] at h
        exact absurd h.1 (by simp)
      | some v =>
        rw [hrp] at h
        by_cases hmax : st.maxsize = 0
        · simp only [hmax, if_true, Prod.mk.injEq] at h
          exact absurd h.1 (by simp)
        · simp only [hmax, if_false, Prod.mk.injEq] at h
          obtain ⟨h1, h2, _⟩ := h
          have hv : v = e := by
            have h3 := h1
            simp only [Except.ok.injEq] at h3
            exact h3
          subst hv
          exact ⟨hmax, h2.symm⟩

/-- After any successful lookup the queried key is in the cache with the
returned elevation. -/
lemma get_elevation_ok_find (st : ServiceState) (la lo e : ℚ)
    (st1 : ServiceState) (evs : List Event)
    (h : get_elevation st la lo = (.ok e, st1, evs)) :
    lruFind st1.cache (la, lo) = some e := by
  unfold get_elevation at h
  cases hf : lruFind st.cache (la, lo) with
  | some v =>
    rw [hf] at h
    simp only [Prod.mk.injEq, Except.ok.injEq] at h
    obtain ⟨h1, h2, _⟩ := h
    rw [← h2]
    simp only [lruTouch]
    rw [← h1]
    exact lruFind_cons_self _ _ _
  | none =>
    rw [hf] at h
    cases hsi : st.spatialIndex with
    | none =>
      rw [hsi] at h
      simp only [Prod.mk.injEq] at h
      exact absurd h.1 (by simp)
    | some tiles =>
      rw [hsi] at h
      simp only [withIndexEvent, Prod.mk.injEq] at h
      obtain ⟨h1, h2, _⟩ := h
      have hst := readFirst_ok_state st la lo _ e st1 _
        (Prod.ext h1 (Prod.ext h2 rfl))
      rw [hst.2]
      simp only [lruPut]
      exact lruFind_cons_self _ _ _

/-- C10: get_elevation is atomic with respect to the cache on failure —
whenever it returns any error, the whole service state (cache included) is
exactly what it was before the call. -/
theorem c10_error_leaves_state (st : ServiceState) (latitude longitude : ℚ)
    (e : AppErr) (st1 : ServiceState) (evs : List Event)
    (h : get_elevation st latitude longitude = (.error e, st1, evs)) :
    st1 = st ∧ st1.cache = st.cache := by
  have := get_elevation_error_state st latitude longitude e st1 evs h
  exact ⟨this, by rw [this]⟩

/-- Witness for C10: a lookup against a service whose index was never
built raises IndexBuildError and leaves the state untouched. -/
theorem c10_witness :
    get_elevation stNoIndex 0 0 = (.error .indexBuild, stNoIndex, []) ∧
    stNoIndex = stNoIndex := by
  have h : get_elevation stNoIndex 0 0 = (.error .indexBuild, stNoIndex, []) := by
    with_unfolding_all rfl
  exact ⟨h, (c10_error_leaves_state stNoIndex 0 0 .indexBuild stNoIndex [] h).1⟩

/-- Inversion of the ElevationNotFoundError outcome: it happens exactly
when the key was not cached and the index query returned no candidate. -/
lemma get_elevation_notFound_inv (st : ServiceState) (la lo : ℚ)
    (st1 : ServiceState) (evs : List Event)
    (h : get_elevation st la lo = (.error (.notFound la lo), st1, evs)) :
    st1 = st ∧ lruFind st.cache (la, lo) = none ∧
      ∃ tiles, st.spatialIndex = some tiles ∧
        tiles.filter (fun t => t.covers lo la) = [] := by
  have hst := get_elevation_error_state st la lo _ st1 evs h
  refine ⟨hst, ?_⟩
  unfold get_elevation at h
  cases hf : lruFind st.cache (la, lo) with
  | some v =>
    rw [hf] at h
    simp only [Prod.mk.injEq] at h
    exact absurd h.1 (by simp)
  | none =>
    refine ⟨rfl, ?_⟩
    rw [hf] at h
    cases hsi : st.spatialIndex with
    | none =>
      rw [hsi] at h
      simp only [Prod.mk.injEq] at h
      exact absurd h.1 (by simp)
    | some tiles =>
      rw [hsi] at h
      refine ⟨tiles, rfl, ?_⟩
      simp only [withIndexEvent, Prod.mk.injEq] at h
      obtain ⟨h1, -, -⟩ := h
      cases hm : tiles.filter (fun t => t.covers lo la) with
      | nil => rfl
      | cons t rest =>
        rw [hm] at h1
        simp only [readFirst] at h1
        by_cases hio : t.ioError
        · simp only [hio, if_true] at h1
          exact absurd h1 (by simp)
        · simp only [hio, if_false, Bool.false_eq_true] at h1
          cases hrp : t.readPixel lo la with
          | none =>
            rw [hrp] at h1
            exact absurd h1 (by simp)
          | some v =>
            rw [hrp] at h1
            by_cases hmax : st.maxsize = 0
            · simp only [hmax, if_true] at h1
              exact absurd h1 (by simp)
            · simp only [hmax, if_false] at h1
              exact absurd h1 (by simp)

/-- C7: the cache never stores negative lookups — after a lookup that ends
in ElevationNotFoundError the state is unchanged and the cache has no
entry for the key, so an identical repeat query performs the spatial-index
query again (an indexQuery event occurs; nothing is served from cache). -/
theorem c7_no_negative_caching (st : ServiceState) (latitude longitude : ℚ)
    (st1 : ServiceState) (evs : List Event)
    (h : get_elevation st latitude longitude =
      (.error (.notFound latitude longitude), st1, evs)) :
    st1 = st ∧ lruFind st1.cache (latitude, longitude) = none ∧
      get_elevation st1 latitude longitude =
        (.error (.notFound latitude longitude), st1,
          [Event.indexQuery longitude latitude]) := by
  obtain ⟨hst, hf, tiles, hsi, hm⟩ :=
    get_elevation_notFound_inv st latitude longitude st1 evs h
  subst hst
  refine ⟨rfl, hf, ?_⟩
  simp only [get_elevation, hf, hsi, hm, withIndexEvent, readFirst]

/-- Witness for C7: the uncovered point (40, 10) against the gradient-tile
service is not found, stays uncached, and the repeat query hits the index
again. -/
theorem c7_witness :
    lruFind stGrad.cache (40, 10) = none ∧
    get_elevation stGrad 40 10 =
      (.error (.notFound 40 10), stGrad, [Event.indexQuery 10 40]) := by
  have h : get_elevation stGrad 40 10 =
      (.error (.notFound 40 10), stGrad, [Event.indexQuery 10 40]) := by
    with_unfolding_all rfl
  obtain ⟨-, h2, h3⟩ := c7_no_negative_caching stGrad 40 10 stGrad _ h
  exact ⟨h2, h3⟩

/-- C6: after a successful lookup, an identical repeat query returns the
identical elevation from the cache fast path: no index query and no pixel
read occur (empty event list), only the recency order is updated. -/
theorem c6_repeat_query_cached (st : ServiceState) (latitude longitude e : ℚ)
    (st1 : ServiceState) (evs : List Event)
    (h : get_elevation st latitude longitude = (.ok e, st1, evs)) :
    get_elevation st1 latitude longitude =
      (.ok e, { st1 with cache := lruTouch st1.cache (latitude, longitude) e },
        []) := by
  have hf := get_elevation_ok_find st latitude longitude e st1 evs h
  unfold get_elevation
  rw [hf]

/-- Witness for C6: the second identical query at (50.5, 0.55) returns the
cached 150.0 with no I/O events. -/
theorem c6_witness :
    get_elevation
        { maxsize := 100, cache := [(((101 : ℚ)/2, (11 : ℚ)/20), 150)],
          spatialIndex := some [tileGrad] } (101/2) (11/20) =
      (.ok 150,
        { maxsize := 100, cache := [(((101 : ℚ)/2, (11 : ℚ)/20), 150)],
          spatialIndex := some [tileGrad] }, []) := by
  have h : get_elevation stGrad (101/2) (11/20) =
      (.ok 150,
        { maxsize := 100, cache := [(((101 : ℚ)/2, (11 : ℚ)/20), 150)],
          spatialIndex := some [tileGrad] },
        [Event.indexQuery (11/20) (101/2), Event.pixelRead 5 5]) := by
    with_unfolding_all rfl
  have h2 := c6_repeat_query_cached stGrad (101/2) (11/20) 150 _ _ h
  rw [h2]
  with_unfolding_all rfl

/-- C2 counterexample: at (50.5, 0.55) the corrupt tile is the first
candidate and the good gradient tile also covers the point and would
yield 150.0, yet the lookup reports ElevationReadError without trying it
— refuting the claim that a ReadError makes the lookup try the next
candidate and that ElevationReadError is reported only after every
candidate failed. -/
theorem c2_counterexample :
    (get_elevation stBrokenFirst (101/2) (11/20)).1 = .error .readError ∧
    tileGrad.covers (11/20) (101/2) = true ∧
    tileGrad.ioError = false ∧
    tileGrad.readPixel (11/20) (101/2) = some 150 ∧
    (get_elevation stGrad (101/2) (11/20)).1 = .ok 150 := by
  refine ⟨?_, ?_, ?_, ?_, ?_⟩ <;> with_unfolding_all rfl

/-- C2 as amended: a RasterioIOError on the first candidate tile makes
get_elevation raise ElevationReadError immediately, never touching the
remaining candidates (the event log records the index query and no pixel
read) and leaving the state unchanged. -/
theorem c2_first_read_error_aborts (st : ServiceState) (tiles : List Tile)
    (t : Tile) (rest : List Tile) (latitude longitude : ℚ)
    (hmiss : lruFind st.cache (latitude, longitude) = none)
    (hidx : st.spatialIndex = some tiles)
    (hfirst : tiles.filter (fun t2 => t2.covers longitude latitude) = t :: rest)
    (hio : t.ioError = true) :
    get_elevation st latitude longitude =
      (.error .readError, st, [Event.indexQuery longitude latitude]) := by
  simp only [get_elevation, hmiss, hidx, hfirst, withIndexEvent, readFirst, hio,
    if_true]

/-- Witness for the amended C2 at the corrupt-tile-first fixture. -/
theorem c2_witness :
    get_elevation stBrokenFirst (101/2) (11/20) =
      (.error .readError, stBrokenFirst, [Event.indexQuery (11/20) (101/2)]) :=
  c2_first_read_error_aborts stBrokenFirst [tileBroken, tileGrad] tileBroken
    [tileGrad] (101/2) (11/20) (by with_unfolding_all rfl) rfl
    (by with_unfolding_all rfl) (by with_unfolding_all rfl)

/-- C3 counterexample: the first candidate declares -9999 as its no-data
sentinel and its sample at (50.5, 0.55) equals that sentinel, while the
second candidate covers the point with the valid sample 150.0 — yet the
lookup returns the sentinel -9999 instead of skipping to the next
candidate, refuting the claim. -/
theorem c3_counterexample :
    tileNoData.nodata = some (-9999) ∧
    tileNoData.readPixel (11/20) (101/2) = some (-9999) ∧
    tileGrad.covers (11/20) (101/2) = true ∧
    tileGrad.readPixel (11/20) (101/2) = some 150 ∧
    (get_elevation stNoDataFirst (101/2) (11/20)).1 = .ok (-9999) := by
  refine ⟨?_, ?_, ?_, ?_, ?_⟩ <;> with_unfolding_all rfl

/-- C3 as amended: get_elevation performs no no-data check — the sample of
the first readable candidate is returned unconditionally, even when it
equals the declared no-data sentinel of the tile. -/
theorem c3_sentinel_returned (st : ServiceState) (tiles : List Tile)
    (t : Tile) (rest : List Tile) (latitude longitude v : ℚ)
    (hmiss : lruFind st.cache (latitude, longitude) = none)
    (hidx : st.spatialIndex = some tiles)
    (hfirst : tiles.filter (fun t2 => t2.covers longitude latitude) = t :: rest)
    (hio : t.ioError = false)
    (hmax : st.maxsize ≠ 0)
    (hrp : t.readPixel longitude latitude = some v)
    (hsent : t.nodata = some v) :
    (get_elevation st latitude longitude).1 = .ok v := by
  simp only [get_elevation, hmiss, hidx, hfirst, withIndexEvent, readFirst, hio,
    Bool.false_eq_true, if_false, hrp, hmax]

/-- Witness for the amended C3 at the nodata-tile-first fixture. -/
theorem c3_witness :
    (get_elevation stNoDataFirst (101/2) (11/20)).1 = .ok (-9999) :=
  c3_sentinel_returned stNoDataFirst [tileNoData, tileGrad] tileNoData
    [tileGrad] (101/2) (11/20) (-9999) (by with_unfolding_all rfl) rfl
    (by with_unfolding_all rfl) (by with_unfolding_all rfl)
    (by decide) (by with_unfolding_all rfl)
    (by with_unfolding_all rfl)

/-- C1: for a point inside the footprint of the first matching tile (strictly
inside at the bottom and right edges, so that a pixel cell contains it),
get_elevation inverts the affine transform with floor to a row/column
inside the pixel grid, reads exactly that one pixel (the event log shows a
single pixelRead and nothing else besides the index query), and returns
its raw sample unchanged — the returned pixel is the unique one whose
half-open cell contains the point, with no interpolation. -/
theorem c1_single_pixel_lookup (st : ServiceState) (tiles : List Tile)
    (t : Tile) (rest : List Tile) (latitude longitude : ℚ)
    (hmiss : lruFind st.cache (latitude, longitude) = none)
    (hidx : st.spatialIndex = some tiles)
    (hfirst : tiles.filter (fun t2 => t2.covers longitude latitude) = t :: rest)
    (hio : t.ioError = false)
    (hmax : st.maxsize ≠ 0)
    (hx : 0 < t.xres) (hy : 0 < t.yres)
    (hlon1 : t.left ≤ longitude) (hlon2 : longitude < t.right)
    (hlat1 : t.bottom < latitude) (hlat2 : latitude ≤ t.top) :
    ∃ r c : ℕ,
      (r : ℤ) = t.rowOf latitude ∧ (c : ℤ) = t.colOf longitude ∧
      r < t.height ∧ c < t.width ∧
      t.left + c * t.xres ≤ longitude ∧
      longitude < t.left + (c + 1) * t.xres ∧
      t.top - (r + 1) * t.yres < latitude ∧
      latitude ≤ t.top - r * t.yres ∧
      (∀ r2 c2 : ℕ,
        t.left + c2 * t.xres ≤ longitude →
        longitude < t.left + (c2 + 1) * t.xres →
        t.top - (r2 + 1) * t.yres < latitude →
        latitude ≤ t.top - r2 * t.yres →
        r2 = r ∧ c2 = c) ∧
      get_elevation st latitude longitude =
        (.ok (t.data r c),
         { st with
             cache := lruPut st.maxsize st.cache (latitude, longitude) (t.data r c) },
         [Event.indexQuery longitude latitude, Event.pixelRead r c]) := by
  have hbot : t.top - t.height * t.yres < latitude := by
    have h0 := hlat1
    unfold Tile.bottom at h0
    linarith
  have hright : longitude < t.left + t.width * t.xres := by
    have h0 := hlon2
    unfold Tile.right at h0
    linarith
  have hrow_nonneg : 0 ≤ t.rowOf latitude := by
    unfold Tile.rowOf
    exact Int.floor_nonneg.mpr (div_nonneg (by linarith) hy.le)
  have hrow_lt : t.rowOf latitude < (t.height : ℤ) := by
    unfold Tile.rowOf
    rw [Int.floor_lt]
    push_cast
    rw [div_lt_iff hy]
    linarith
  have hcol_nonneg : 0 ≤ t.colOf longitude := by
    unfold Tile.colOf
    exact Int.floor_nonneg.mpr (div_nonneg (by linarith) hx.le)
  have hcol_lt : t.colOf longitude < (t.width : ℤ) := by
    unfold Tile.colOf
    rw [Int.floor_lt]
    push_cast
    rw [div_lt_iff hx]
    linarith
  have hrEq : ((t.rowOf latitude).toNat : ℤ) = t.rowOf latitude :=
    Int.toNat_of_nonneg hrow_nonneg
  have hcEq : ((t.colOf longitude).toNat : ℤ) = t.colOf longitude :=
    Int.toNat_of_nonneg hcol_nonneg
  have hrEqQ : (((t.rowOf latitude).toNat : ℕ) : ℚ) = ((t.rowOf latitude : ℤ) : ℚ) := by
    exact_mod_cast congrArg (fun z : ℤ => (z : ℚ)) hrEq
  have hcEqQ : (((t.colOf longitude).toNat : ℕ) : ℚ) = ((t.colOf longitude : ℤ) : ℚ) := by
    exact_mod_cast congrArg (fun z : ℤ => (z : ℚ)) hcEq
  have hfle : ((t.rowOf latitude : ℤ) : ℚ) ≤ (t.top - latitude) / t.yres :=
    Int.floor_le _
  have hflt : (t.top - latitude) / t.yres < (t.rowOf latitude : ℤ) + 1 :=
    Int.lt_floor_add_one _
  have hgle : ((t.colOf longitude : ℤ) : ℚ) ≤ (longitude - t.left) / t.xres :=
    Int.floor_le _
  have hglt : (longitude - t.left) / t.xres < (t.colOf longitude : ℤ) + 1 :=
    Int.lt_floor_add_one _
  have hrow_cell_le : latitude ≤ t.top - ((t.rowOf latitude).toNat : ℚ) * t.yres := by
    rw [hrEqQ]
    have h1 : ((t.rowOf latitude : ℤ) : ℚ) * t.yres ≤ t.top - latitude :=
      (le_div_iff hy).mp hfle
    linarith
  have hrow_cell_lt : t.top - (((t.rowOf latitude).toNat : ℚ) + 1) * t.yres < latitude := by
    rw [hrEqQ]
    have h1 : t.top - latitude < (((t.rowOf latitude : ℤ) : ℚ) + 1) * t.yres := by
      have := (div_lt_iff hy).mp hflt
      push_cast at this ⊢
      linarith
    linarith
  have hcol_cell_le : t.left + ((t.colOf longitude).toNat : ℚ) * t.xres ≤ longitude := by
    rw [hcEqQ]
    have h1 : ((t.colOf longitude : ℤ) : ℚ) * t.xres ≤ longitude - t.left :=
      (le_div_iff hx).mp hgle
    linarith
  have hcol_cell_lt : longitude < t.left + (((t.colOf longitude).toNat : ℚ) + 1) * t.xres := by
    rw [hcEqQ]
    have h1 : longitude - t.left < (((t.colOf longitude : ℤ) : ℚ) + 1) * t.xres := by
      have := (div_lt_iff hx).mp hglt
      push_cast at this ⊢
      linarith
    linarith
  have hrp : t.readPixel longitude latitude =
      some (t.data (t.rowOf latitude).toNat (t.colOf longitude).toNat) := by
    simp only [Tile.readPixel]
    rw [if_pos ⟨hrow_nonneg, hrow_lt, hcol_nonneg, hcol_lt⟩]
  refine ⟨(t.rowOf latitude).toNat, (t.colOf longitude).toNat, hrEq, hcEq, ?_, ?_,
    hcol_cell_le, hcol_cell_lt, hrow_cell_lt, hrow_cell_le, ?_, ?_⟩
  · have h1 : ((t.rowOf latitude).toNat : ℤ) < (t.height : ℤ) := by
      rw [hrEq]; exact hrow_lt
    exact_mod_cast h1
  · have h1 : ((t.colOf longitude).toNat : ℤ) < (t.width : ℤ) := by
      rw [hcEq]; exact hcol_lt
    exact_mod_cast h1
  · intro r2 c2 hc2a hc2b hr2a hr2b
    have hr2 : t.rowOf latitude = (r2 : ℤ) := by
      unfold Tile.rowOf
      rw [Int.floor_eq_iff]
      constructor
      · rw [le_div_iff hy]
        push_cast
        linarith
      · rw [div_lt_iff hy]
        push_cast at hr2a ⊢
        linarith
    have hc2 : t.colOf longitude = (c2 : ℤ) := by
      unfold Tile.colOf
      rw [Int.floor_eq_iff]
      constructor
      · rw [le_div_iff hx]
        push_cast
        linarith
      · rw [div_lt_iff hx]
        push_cast at hc2b ⊢
        linarith
    constructor
    · have : ((t.rowOf latitude).toNat : ℤ) = (r2 : ℤ) := by rw [hrEq, hr2]
      exact (by exact_mod_cast this : (t.rowOf latitude).toNat = r2).symm
    · have : ((t.colOf longitude).toNat : ℤ) = (c2 : ℤ) := by rw [hcEq, hc2]
      exact (by exact_mod_cast this : (t.colOf longitude).toNat = c2).symm
  · simp only [get_elevation, hmiss, hidx, hfirst, withIndexEvent, readFirst, hio,
      Bool.false_eq_true, if_false, hrp, hmax]

/-- Witness for C1: the worked example of the spec — the 0.1-degree gradient tile
queried at (50.5, 0.55) reads exactly pixel (5, 5) and returns its raw
sample 150.0. -/
theorem c1_witness :
    get_elevation stGrad (101/2) (11/20) =
      (.ok (tileGrad.data 5 5),
       { stGrad with
           cache := lruPut stGrad.maxsize stGrad.cache (101/2, 11/20)
             (tileGrad.data 5 5) },
       [Event.indexQuery (11/20) (101/2), Event.pixelRead 5 5]) ∧
    tileGrad.data 5 5 = 150 := by
  obtain ⟨r, c, hr, hc, -, -, -, -, -, -, -, hmain⟩ :=
    c1_single_pixel_lookup stGrad [tileGrad] tileGrad [] (101/2) (11/20)
      (by with_unfolding_all rfl) rfl (by with_unfolding_all rfl)
      (by with_unfolding_all rfl) (by decide)
      (by norm_num [tileGrad]) (by norm_num [tileGrad])
      (by norm_num [tileGrad]) (by norm_num [tileGrad, Tile.right])
      (by norm_num [tileGrad, Tile.bottom]) (by norm_num [tileGrad])
  have hrv : tileGrad.rowOf (101/2) = 5 := by with_unfolding_all rfl
  have hcv : tileGrad.colOf (11/20) = 5 := by with_unfolding_all rfl
  have hr5 : r = 5 := by
    have : (r : ℤ) = 5 := by rw [hr, hrv]
    exact_mod_cast this
  have hc5 : c = 5 := by
    have : (c : ℤ) = 5 := by rw [hc, hcv]
    exact_mod_cast this
  subst hr5
  subst hc5
  exact ⟨hmain, by with_unfolding_all rfl⟩

/-- The candidate loop never produces InvalidCoordinateError. -/
lemma readFirst_no_invalid (st : ServiceState) (la lo : ℚ) (ts : List Tile) :
    (readFirst st la lo ts).1 ≠ .error .invalidCoordinate := by
  cases ts with
  | nil => simp [readFirst]
  | cons t rest =>
    simp only [readFirst]
    by_cases hio : t.ioError
    · simp [hio]
    · simp only [hio, Bool.false_eq_true, if_false]
      cases hrp : t.readPixel lo la with
      | none => simp
      | some v =>
        by_cases hmax : st.maxsize = 0
        · simp [hmax]
        · simp [hmax]

/-- get_elevation never raises InvalidCoordinateError: validation happens
entirely before the lookup. -/
lemma get_elevation_no_invalid (st : ServiceState) (la lo : ℚ) :
    (get_elevation st la lo).1 ≠ .error .invalidCoordinate := by
  unfold get_elevation
  cases hf : lruFind st.cache (la, lo) with
  | some v => simp
  | none =>
    cases hsi : st.spatialIndex with
    | none => simp
    | some tiles =>
      simp only [withIndexEvent]
      exact readFirst_no_invalid st la lo _

/-- C5: process_location raises InvalidCoordinateError exactly when the
parse-and-validate stage rejects the string (not exactly two
comma-separated float() components after stripping, or latitude outside
[-90, 90], or longitude outside [-180, 180]); on rejection nothing else
happens (state unchanged, no I/O, no other error), and a string that
parses in range is never rejected. -/
theorem c5_invalid_iff_validation_fails (st : ServiceState) (location : String) :
    ((process_location st location).1 = .error .invalidCoordinate ↔
      validateLocation location = none) ∧
    (validateLocation location = none →
      process_location st location = (.error .invalidCoordinate, st, [])) := by
  have hback : validateLocation location = none →
      process_location st location = (.error .invalidCoordinate, st, []) := by
    intro hval
    unfold process_location
    rw [hval]
  refine ⟨⟨?_, fun hval => by rw [hback hval]⟩, hback⟩
  intro h
  cases hval : validateLocation location with
  | none => rfl
  | some p =>
    obtain ⟨la, lo⟩ := p
    rcases hge : get_elevation st la lo with ⟨res, st1, evs⟩
    cases res with
    | ok e =>
      simp only [process_location, hval, hge] at h
      exact absurd h (by simp)
    | error err =>
      simp only [process_location, hval, hge, Except.error.injEq] at h
      subst h
      have hni := get_elevation_no_invalid st la lo
      rw [hge] at hni
      exact absurd rfl hni

/-- Witness for C5: the no-comma string from the spec examples is
rejected with InvalidCoordinateError and nothing else happens. -/
theorem c5_witness :
    process_location stGrad "51.5" = (.error .invalidCoordinate, stGrad, []) :=
  (c5_invalid_iff_validation_fails stGrad "51.5").2 (by with_unfolding_all rfl)

/-- C9: when either component of the location string parses as a
non-finite float (nan or an infinity), process_location raises
InvalidCoordinateError through the range check — the chained comparison is
false for every non-finite value — and get_elevation is never invoked
(state unchanged, no events). -/
theorem c9_nonfinite_rejected (st : ServiceState) (location s1 s2 : String)
    (a b : PyFloat)
    (hsplit : location.splitOn "," = [s1, s2])
    (ha : pyFloatOfString (pyStrip s1) = some a)
    (hb : pyFloatOfString (pyStrip s2) = some b)
    (hnf : a.isFinite = false ∨ b.isFinite = false) :
    process_location st location = (.error .invalidCoordinate, st, []) := by
  have hval : validateLocation location = none := by
    simp only [validateLocation, hsplit, ha, hb]
    cases a with
    | finite qa =>
      cases b with
      | finite qb =>
        rcases hnf with h | h <;> simp [PyFloat.isFinite] at h
      | nan => cases hq : inRange (-90) 90 (.finite qa) <;> simp [inRange, hq]
      | posInf => cases hq : inRange (-90) 90 (.finite qa) <;> simp [inRange, hq]
      | negInf => cases hq : inRange (-90) 90 (.finite qa) <;> simp [inRange, hq]
    | nan => simp [inRange]
    | posInf => simp [inRange]
    | negInf => simp [inRange]
  unfold process_location
  rw [hval]

/-- Witness for C9: the input "nan,0" is rejected before any lookup. -/
theorem c9_witness :
    process_location stGrad "nan,0" = (.error .invalidCoordinate, stGrad, []) :=
  c9_nonfinite_rejected stGrad "nan,0" "nan" "0" .nan (.finite 0)
    (by with_unfolding_all rfl) (by with_unfolding_all rfl)
    (by with_unfolding_all rfl) (Or.inl rfl)

/-- C4 counterexample: for the batch ["50.5,0.55", "999,999"] the first
location on its own resolves to 150.0 and the second on its own fails
validation, but the endpoint returns one batch-wide error instead of a
two-element list of independent outcomes — the first result is not
produced, refuting the independent per-location-outcome claim. -/
theorem c4_counterexample :
    (process_location stGrad "50.5,0.55").1 =
      .ok { latitude := 101/2, longitude := 11/20, elevation := 150 } ∧
    (process_location stGrad "999,999").1 = .error .invalidCoordinate ∧
    batchLookup stGrad ["50.5,0.55", "999,999"] = .error .invalidCoordinate := by
  refine ⟨?_, ?_, ?_⟩ <;> with_unfolding_all rfl

/-- C4 as amended: the batch returns the same-length ordered list of
results only when every location succeeds; as soon as any per-location
outcome is an error, the whole batch is aborted with a single error and
no per-location results are returned. -/
theorem c4_all_or_nothing (st : ServiceState) (locs : List String) :
    (firstError (batchOutcomes st locs) = none →
      batchLookup st locs = .ok ((batchOutcomes st locs).filterMap okPart) ∧
      ((batchOutcomes st locs).filterMap okPart).length = locs.length) ∧
    (∀ e, firstError (batchOutcomes st locs) = some e →
      batchLookup st locs = .error e) := by
  constructor
  · intro h
    constructor
    · simp only [batchLookup]
      rw [h]
    · have hlen : ∀ outs : List (Except AppErr ElevationResult),
          firstError outs = none → (outs.filterMap okPart).length = outs.length := by
        intro outs
        induction outs with
        | nil => intro _; simp
        | cons o rest ih =>
          intro h0
          cases o with
          | ok v =>
            simp only [firstError] at h0
            simp [okPart, List.filterMap_cons, ih h0]
          | error e => simp [firstError] at h0
      rw [hlen _ h]
      simp [batchOutcomes]
  · intro e he
    simp only [batchLookup]
    rw [he]

/-- Witness for the amended C4: a batch containing a failing location
returns a single error. -/
theorem c4_witness :
    batchLookup stGrad ["999,999"] = .error .invalidCoordinate :=
  (c4_all_or_nothing stGrad ["999,999"]).2 .invalidCoordinate
    (by with_unfolding_all rfl)

/-- The insertion path never leaves more than maxsize entries. -/
lemma lruPut_length (m : Nat) (c : CacheList) (k : QueryKey) (v : ℚ)
    (hm : 0 < m) : (lruPut m c k v).length ≤ m := by
  simp only [lruPut, List.length_cons, List.length_take]
  omega

/-- Searching past one entry with a different key. -/
lemma lruFind_cons_of_ne (p : QueryKey × ℚ) (c : CacheList) (k : QueryKey)
    (h : keyEq p.1 k = false) : lruFind (p :: c) k = lruFind c k := by
  simp only [lruFind, List.find?]
  rw [h]

/-- Erasing an absent key is the identity. -/
lemma eraseKey_of_find_none (c : CacheList) (k : QueryKey)
    (h : lruFind c k = none) : eraseKey c k = c := by
  induction c with
  | nil => rfl
  | cons p rest ih =>
    by_cases hk : keyEq p.1 k = true
    · exfalso
      simp only [lruFind, List.find?] at h
      rw [hk] at h
      simp at h
    · have hk2 : keyEq p.1 k = false := by simpa using hk
      have h2 : lruFind rest k = none := by
        rw [← lruFind_cons_of_ne p rest k hk2]
        exact h
      simp [eraseKey, List.filter_cons, hk2]
      simpa [eraseKey] using ih h2

/-- Erasing a present key strictly shrinks the cache. -/
lemma eraseKey_length_lt (c : CacheList) (k : QueryKey) (w : ℚ)
    (h : lruFind c k = some w) : (eraseKey c k).length < c.length := by
  induction c with
  | nil => simp [lruFind] at h
  | cons p rest ih =>
    by_cases hk : keyEq p.1 k = true
    · have hle := List.length_filter_le (fun p2 => !(keyEq p2.1 k)) rest
      simp only [eraseKey] at hle ⊢
      simp [List.filter_cons, hk]
      omega
    · have hk2 : keyEq p.1 k = false := by simpa using hk
      have h2 : lruFind rest k = some w := by
        rw [← lruFind_cons_of_ne p rest k hk2]
        exact h
      have h3 := ih h2
      simp only [eraseKey] at h3 ⊢
      simp [List.filter_cons, hk2]
      omega

/-- The two possible effects of a successful lookup on the service state:
recency-touched on a cache hit, or extended by the freshly read sample. -/
lemma get_elevation_ok_state (st : ServiceState) (la lo e : ℚ)
    (st1 : ServiceState) (evs : List Event)
    (h : get_elevation st la lo = (.ok e, st1, evs)) :
    (lruFind st.cache (la, lo) = some e ∧
      st1 = { st with cache := lruTouch st.cache (la, lo) e }) ∨
    (st.maxsize ≠ 0 ∧
      st1 = { st with cache := lruPut st.maxsize st.cache (la, lo) e }) := by
  unfold get_elevation at h
  obtain ⟨o, ho⟩ : ∃ o, lruFind st.cache (la, lo) = o := ⟨_, rfl⟩
  rw [ho] at h
  cases o with
  | some v =>
    simp only [Prod.mk.injEq, Except.ok.injEq] at h
    obtain ⟨h1, h2, _⟩ := h
    subst h1
    exact Or.inl ⟨ho, h2.symm⟩
  | none =>
    obtain ⟨si, hsi⟩ : ∃ si, st.spatialIndex = si := ⟨_, rfl⟩
    rw [hsi] at h
    cases si with
    | none =>
      simp only [Prod.mk.injEq] at h
      exact absurd h.1 (by simp)
    | some tiles =>
      simp only [withIndexEvent, Prod.mk.injEq] at h
      obtain ⟨h1, h2, _⟩ := h
      exact Or.inr (readFirst_ok_state st la lo _ e st1 _
        (Prod.ext h1 (Prod.ext h2 rfl)))

/-- C8: the LRU result cache respects its bound and eviction contract —
(1) an insertion never pushes the entry count above the configured
maximum; (2) inserting a new key into a full cache evicts exactly the
least-recently-used (last) entry; (3) a get counts as a use: the
least-recently-used key, once read (moved to MRU by the hit path),
survives the eviction that inserting a fresh key would otherwise inflict
on it, while without the get it is evicted; (4) through get_elevation the
cache size bound is preserved at all times. -/
theorem c8_lru_bound_and_eviction (maxsize : Nat) (c c0 : CacheList)
    (k k2 : QueryKey) (v v2 w : ℚ) (st : ServiceState) (latitude longitude : ℚ)
    (hmax : 0 < maxsize) :
    (c.length ≤ maxsize → (lruPut maxsize c k v).length ≤ maxsize) ∧
    (c.length = maxsize → lruFind c k = none →
      lruPut maxsize c k v = (k, v) :: c.dropLast) ∧
    (c = c0 ++ [(k, w)] → c.length = maxsize → 1 < maxsize →
      lruFind c0 k = none → lruFind c0 k2 = none → k2 ≠ k →
      lruFind (lruPut maxsize c k2 v2) k = none ∧
      lruFind (lruPut maxsize (lruTouch c k w) k2 v2) k = some w) ∧
    (st.cache.length ≤ st.maxsize →
      ((get_elevation st latitude longitude).2.1).cache.length ≤ st.maxsize) := by
  refine ⟨fun _ => lruPut_length maxsize c k v hmax, ?_, ?_, ?_⟩
  · intro hlen hnone
    unfold lruPut
    rw [eraseKey_of_find_none c k hnone]
    congr 1
    rw [List.dropLast_eq_take, hlen]
  · intro hc hlen hmax2 hfc0k hfc0k2 hne
    have hkk2 : keyEq k k2 = false :=
      decide_eq_false (fun h2 => hne h2.symm)
    have hk2k : keyEq k2 k = false := decide_eq_false hne
    have hkk : keyEq k k = true := by simp [keyEq]
    have hc0len : c0.length + 1 = maxsize := by
      rw [hc] at hlen
      simpa using hlen
    have h5k2 : List.filter (fun p => !(keyEq p.1 k2)) c0 = c0 :=
      eraseKey_of_find_none c0 k2 hfc0k2
    have h5k : List.filter (fun p => !(keyEq p.1 k)) c0 = c0 :=
      eraseKey_of_find_none c0 k hfc0k
    constructor
    · have herase : eraseKey c k2 = c := by
        rw [hc]
        simp [eraseKey, List.filter_append, List.filter_cons, hkk2, h5k2]
      unfold lruPut
      rw [herase, hc]
      rw [show maxsize - 1 = c0.length from by omega]
      rw [List.take_left]
      rw [lruFind_cons_of_ne _ _ _ hk2k]
      exact hfc0k
    · have herasek : eraseKey c k = c0 := by
        rw [hc]
        simp [eraseKey, List.filter_append, List.filter_cons, hkk, h5k]
      unfold lruTouch
      rw [herasek]
      unfold lruPut
      have herase2 : eraseKey ((k, w) :: c0) k2 = (k, w) :: c0 := by
        simp [eraseKey, List.filter_cons, hkk2, h5k2]
      rw [herase2]
      rw [show maxsize - 1 = (maxsize - 2) + 1 from by omega]
      rw [List.take_succ_cons]
      rw [lruFind_cons_of_ne _ _ _ hk2k]
      exact lruFind_cons_self _ _ _
  · intro hb
    rcases hge : get_elevation st latitude longitude with ⟨res, st1, evs⟩
    cases res with
    | error e2 =>
      have hst := get_elevation_error_state st latitude longitude e2 st1 evs hge
      rw [hst]
      exact hb
    | ok u =>
      rcases get_elevation_ok_state st latitude longitude u st1 evs hge with
        ⟨hf, h⟩ | ⟨hm0, h⟩
      · rw [h]
        show (lruTouch st.cache (latitude, longitude) u).length ≤ st.maxsize
        simp only [lruTouch, List.length_cons]
        have := eraseKey_length_lt st.cache (latitude, longitude) u hf
        omega
      · rw [h]
        exact lruPut_length _ _ _ _ (Nat.pos_of_ne_zero hm0)

/-- A two-entry full cache used to witness the LRU contract. -/
def cacheTwo : CacheList := [((1, 1), 10), ((2, 2), 20)]

/-- Witness for C8 at maxsize 2: the bound holds, inserting the fresh key
(3, 3) evicts exactly the LRU entry (2, 2) unless a get has touched it
first, and the service-level bound holds after a lookup. -/
theorem c8_witness :
    (lruPut 2 cacheTwo (3, 3) 30).length ≤ 2 ∧
    lruPut 2 cacheTwo (3, 3) 30 = ((3, 3), 30) :: cacheTwo.dropLast ∧
    (lruFind (lruPut 2 cacheTwo (3, 3) 30) (2, 2) = none ∧
      lruFind (lruPut 2 (lruTouch cacheTwo (2, 2) 20) (3, 3) 30) (2, 2) =
        some 20) ∧
    ((get_elevation stGrad 40 10).2.1).cache.length ≤ stGrad.maxsize := by
  refine ⟨?_, ?_, ?_, ?_⟩
  · exact (c8_lru_bound_and_eviction 2 cacheTwo [] (3, 3) (0, 0) 30 0 0 stGrad
      40 10 (by decide)).1 (by with_unfolding_all rfl)
  · exact (c8_lru_bound_and_eviction 2 cacheTwo [] (3, 3) (0, 0) 30 0 0 stGrad
      40 10 (by decide)).2.1 (by with_unfolding_all rfl)
      (by with_unfolding_all rfl)
  · exact (c8_lru_bound_and_eviction 2 cacheTwo [((1, 1), 10)] (2, 2) (3, 3)
      0 30 20 stGrad 40 10 (by decide)).2.2.1 (by with_unfolding_all rfl)
      (by with_unfolding_all rfl) (by decide) (by with_unfolding_all rfl)
      (by with_unfolding_all rfl) (by with_unfolding_all decide)
  · exact (c8_lru_bound_and_eviction 2 cacheTwo [] (3, 3) (0, 0) 30 0 0 stGrad
      40 10 (by decide)).2.2.2 (by decide)

end OpenElevation
